import Mathlib

/-!
Fable.Haunted: the interop shim.

A shallow embedding of `src/interop.js` and `src/Library.fs.js`.

* `Interop.defineComponent` is the wrapper around `window.customElements.define`.
* `Library.*` are the bindings exported by `Library.fs.js`.

Everything the two files import from outside (the browser's custom-element
registry, the `haunted` package, fable-library's `class_type`) is an argument
of the embedded definitions.  A reference model of the browser registry,
`customElements`, is given separately and is used for the statements that
talk about what the registry does with a call.
-/

namespace FableHaunted

/-! ## JavaScript values -/

/-- Identity of a class (constructor function) value.  `haunted` is the class
`Haunted` declared in `Library.fs.js`; `user id` is any other class.  A class
value is one the host can take as a constructor: its prototype is an object and
reading its callbacks does not throw. -/
inductive ClassRef where
  | haunted
  | user (id : Nat)
  deriving DecidableEq, Repr

/-- The JavaScript values that can reach the shim.  Objects other than classes
are identified by a reference. -/
inductive JSVal where
  | undefined
  | null
  | bool (b : Bool)
  | num (n : Int)
  | str (s : String)
  | ref (id : Nat)
  | ctor (c : ClassRef)
  deriving DecidableEq, Repr

/-- An ordinary object: the class it is an instance of and its own properties. -/
structure JSObject where
  cls : ClassRef
  own : List (String × JSVal)
  deriving DecidableEq, Repr

/-- Outcome of a call: a returned value or a thrown error, together with the
state the call leaves behind. -/
abbrev Outcome (σ ε α : Type) := Except ε α × σ

/-! ## The imported environment -/

/-- The host's custom-element registry as `interop.js` uses it: a state and the
operation `define(name, constructor)`, which returns a value or throws, plus the
lookup `get(name)`. -/
structure Host (σ ε : Type) where
  define : σ → String → JSVal → Outcome σ ε JSVal
  get : σ → String → JSVal

/-- The three functions `Library.fs.js` imports from the package `haunted`.
Each takes its argument list and the package's own state. -/
structure HauntedLib (σ ε : Type) where
  useState : List JSVal → σ → Outcome σ ε JSVal
  useEffect : List JSVal → σ → Outcome σ ε JSVal
  component : List JSVal → σ → Outcome σ ε JSVal

/-! ## `src/interop.js` -/

namespace Interop

/-- The function `defineComponent(name, component)`: a single statement calling
`window.customElements.define(name, component)`.  The value of that call is
dropped and the function falls off its end, so it returns `undefined`; an
exception of the call is not caught. -/
def defineComponent {σ ε : Type} (window : Host σ ε) (s : σ) (name : String)
    (component : JSVal) : Outcome σ ε JSVal :=
  match window.define s name component with
  | (Except.ok _, s') => (Except.ok JSVal.undefined, s')
  | (Except.error e, s') => (Except.error e, s')

end Interop

/-! ## `src/Library.fs.js` -/

namespace Library

/-- The binding `export const defineComponent = defineComponent_1`. -/
def defineComponent {σ ε : Type} (window : Host σ ε) (s : σ) (name : String)
    (component : JSVal) : Outcome σ ε JSVal :=
  Interop.defineComponent window s name component

/-- The class value `Haunted`. -/
def Haunted : JSVal := JSVal.ctor ClassRef.haunted

/-- The body of `constructor() { }` of class `Haunted`: no statement, so the
freshly allocated `this` is returned as it is, whatever the arguments. -/
def Haunted.constructor (this : JSObject) (_args : List JSVal) : JSObject :=
  this

/-- The expression `new Haunted(...args)`: allocate an object whose class is
`Haunted` and which has no own property, then run the constructor on it. -/
def Haunted.new (args : List JSVal) : JSObject :=
  Haunted.constructor { cls := ClassRef.haunted, own := [] } args

/-- The function `Haunted_$ctor()`: returns `new Haunted()`. -/
def Haunted_ctor : JSObject :=
  Haunted.new []

/-- The function `Haunted$reflection()`: returns
`class_type("Fable.Haunted.Haunted", void 0, Haunted)`.  The imported
`class_type` is an argument and receives the argument list of the call. -/
def Haunted_reflection {τ : Type} (class_type : List JSVal → τ) : τ :=
  class_type [JSVal.str "Fable.Haunted.Haunted", JSVal.undefined, Haunted]

/-- The binding `export const Haunted_useState_1505 = useState`. -/
def Haunted_useState_1505 {σ ε : Type} (haunted : HauntedLib σ ε) :
    List JSVal → σ → Outcome σ ε JSVal :=
  haunted.useState

/-- The binding `export const Haunted_useState_FCFD9EF = useState`. -/
def Haunted_useState_FCFD9EF {σ ε : Type} (haunted : HauntedLib σ ε) :
    List JSVal → σ → Outcome σ ε JSVal :=
  haunted.useState

/-- The binding `export const Haunted_useEffect_Z7A61650B = useEffect`. -/
def Haunted_useEffect_Z7A61650B {σ ε : Type} (haunted : HauntedLib σ ε) :
    List JSVal → σ → Outcome σ ε JSVal :=
  haunted.useEffect

/-- The binding `export const Haunted_useEffect_A8D5B5F = useEffect`. -/
def Haunted_useEffect_A8D5B5F {σ ε : Type} (haunted : HauntedLib σ ε) :
    List JSVal → σ → Outcome σ ε JSVal :=
  haunted.useEffect

/-- The binding `export const Haunted_Component_4E60E31B = component`. -/
def Haunted_Component_4E60E31B {σ ε : Type} (haunted : HauntedLib σ ε) :
    List JSVal → σ → Outcome σ ε JSVal :=
  haunted.component

/-- The binding `export const Haunted_Component_Z4AA1EB8B = component`. -/
def Haunted_Component_Z4AA1EB8B {σ ε : Type} (haunted : HauntedLib σ ε) :
    List JSVal → σ → Outcome σ ε JSVal :=
  haunted.component

end Library

/-! ## Reference model of the imported reflection helper -/

/-- Modelled from the spec: the type descriptor of the external reflection
helper (fable-library's `Reflection.js`, imported by `Library.fs.js` and not
part of the sources): a metadata object identifying a type by its name, with
its generic arguments, its constructor and its parent. -/
structure TypeInfo where
  fullname : JSVal
  generics : JSVal
  construct : JSVal
  parent : JSVal
  deriving DecidableEq, Repr

/-- Modelled from the spec: the external reflection helper
`class_type(fullname, generics, construct, parent)`, which builds the descriptor
of a class from its arguments; an argument the call leaves out is `undefined`. -/
def class_type (args : List JSVal) : TypeInfo :=
  { fullname := args.getD 0 JSVal.undefined
    generics := args.getD 1 JSVal.undefined
    construct := args.getD 2 JSVal.undefined
    parent := args.getD 3 JSVal.undefined }

/-! ## Reference model of the host registry -/

/-- The errors `CustomElementRegistry.define` throws. -/
inductive DOMError where
  | TypeError
  | SyntaxError
  | NotSupportedError
  deriving DecidableEq, Repr

/-- State of the registry: the definitions made so far, oldest first, each a
name and the class registered under it. -/
abbrev Registry := List (String × ClassRef)

/-- Whether `n` lies in the closed code-point range `lo .. hi`. -/
def inRange (lo hi n : Nat) : Bool :=
  decide (lo ≤ n) && decide (n ≤ hi)

/-- The production `PCENChar` of the HTML Standard. -/
def isPCENChar (c : Char) : Bool :=
  let n := c.toNat
  c == '-' || c == '.' || inRange 0x30 0x39 n || c == '_' || inRange 0x61 0x7A n
    || n == 0xB7 || inRange 0xC0 0xD6 n || inRange 0xD8 0xF6 n || inRange 0xF8 0x37D n
    || inRange 0x37F 0x1FFF n || inRange 0x200C 0x200D n || inRange 0x203F 0x2040 n
    || inRange 0x2070 0x218F n || inRange 0x2C00 0x2FEF n || inRange 0x3001 0xD7FF n
    || inRange 0xF900 0xFDCF n || inRange 0xFDF0 0xFFFD n || inRange 0x10000 0xEFFFF n

/-- The production `PotentialCustomElementName`:
`[a-z] (PCENChar)* '-' (PCENChar)*`. -/
def isPotentialCustomElementName (name : String) : Bool :=
  match name.toList with
  | [] => false
  | c :: rest => inRange 0x61 0x7A c.toNat && rest.all isPCENChar && rest.contains '-'

/-- The hyphen-containing names the host reserves for itself. -/
def reservedNames : List String :=
  ["annotation-xml", "color-profile", "font-face", "font-face-src", "font-face-uri",
   "font-face-format", "font-face-name", "missing-glyph"]

/-- Modelled from the spec: the host's custom-element naming rule.  The spec
states it as "containing a hyphen"; the rule of the host platform (HTML
Standard, valid custom element name) is modelled in full, and implies it. -/
def isValidCustomElementName (name : String) : Bool :=
  isPotentialCustomElementName name && !reservedNames.contains name

/-- Whether the value is a constructor (`IsConstructor`). -/
def isConstructor : JSVal → Bool
  | JSVal.ctor _ => true
  | _ => false

/-- The class registered under `name`, if any. -/
def Registry.lookup (r : Registry) (name : String) : Option ClassRef :=
  (r.find? (fun d => d.1 == name)).map (fun d => d.2)

/-- Whether some definition of the registry has the name `name`. -/
def Registry.hasName (r : Registry) (name : String) : Bool :=
  r.any (fun d => d.1 == name)

/-- Whether some definition of the registry has the constructor `c`. -/
def Registry.hasConstructor (r : Registry) (c : ClassRef) : Bool :=
  r.any (fun d => d.2 == c)

namespace customElements

/-- Modelled from the spec: the host registry's `define(name, constructor)`,
which is provided by the browser and not by the sources.  It follows the steps
of the HTML Standard that decide whether a definition is accepted: the
constructor must be a constructor (`TypeError`), the name must be a valid
custom element name (`SyntaxError`), the name must not be registered yet and
the constructor must not be registered yet (`NotSupportedError`); then the
definition is added and `undefined` is returned.  A throwing call leaves the
registry as it was.  The later steps of the host, which read the prototype and
the callbacks of the class, do not throw for a class value and are left out. -/
def define (r : Registry) (name : String) (constructor : JSVal) :
    Outcome Registry DOMError JSVal :=
  match constructor with
  | JSVal.ctor c =>
    if !isValidCustomElementName name then (Except.error DOMError.SyntaxError, r)
    else if r.hasName name then (Except.error DOMError.NotSupportedError, r)
    else if r.hasConstructor c then (Except.error DOMError.NotSupportedError, r)
    else (Except.ok JSVal.undefined, r ++ [(name, c)])
  | _ => (Except.error DOMError.TypeError, r)

/-- Modelled from the spec: the host registry's `get(name)`: the constructor
registered under the name, or `undefined`. -/
def get (r : Registry) (name : String) : JSVal :=
  match r.lookup name with
  | some c => JSVal.ctor c
  | none => JSVal.undefined

end customElements

/-- The browser's `window`, with `window.customElements` the reference model. -/
def window : Host Registry DOMError :=
  { define := customElements.define
    get := customElements.get }

/-- The registry after a sequence of `defineComponent(name, component)` calls
made one after the other, each of which returns or throws. -/
def runDefines {σ ε : Type} (w : Host σ ε) (s : σ) (calls : List (String × JSVal)) : σ :=
  calls.foldl (fun st call => (Interop.defineComponent w st call.1 call.2).2) s

/-- The class `MyWidgetClass` of the spec's scenario. -/
def MyWidgetClass : JSVal := JSVal.ctor (ClassRef.user 1)

/-- A host whose `define` returns its `name` argument as a string and counts
the calls made; it throws on the empty name. -/
def talkativeWindow : Host Nat String :=
  { define := fun s name _ =>
      if name = "" then (Except.error "empty", s) else (Except.ok (JSVal.str name), s + 1)
    get := fun _ _ => JSVal.undefined }

/-! ## Facts about the reference registry -/

theorem get_nil (name : String) : customElements.get [] name = JSVal.undefined := rfl

theorem get_cons (d : String × ClassRef) (r : Registry) (name : String) :
    customElements.get (d :: r) name
      = if d.1 = name then JSVal.ctor d.2 else customElements.get r name := by
  by_cases h : d.1 = name
  · have hb : (d.1 == name) = true := by simpa using h
    simp [customElements.get, Registry.lookup, List.find?_cons, hb, h]
  · have hb : (d.1 == name) = false := by simpa using h
    simp [customElements.get, Registry.lookup, List.find?_cons, hb, h]

theorem hasName_cons (d : String × ClassRef) (r : Registry) (name : String) :
    Registry.hasName (d :: r) name = (d.1 == name || Registry.hasName r name) := by
  simp [Registry.hasName]

theorem hasConstructor_cons (d : String × ClassRef) (r : Registry) (c : ClassRef) :
    Registry.hasConstructor (d :: r) c
      = (d.2 == c || Registry.hasConstructor r c) := by
  simp [Registry.hasConstructor]

theorem get_eq_undefined_iff (r : Registry) (name : String) :
    customElements.get r name = JSVal.undefined ↔ Registry.hasName r name = false := by
  induction r with
  | nil => simp [get_nil, Registry.hasName]
  | cons d r ih =>
    rw [get_cons, hasName_cons]
    by_cases h : d.1 = name
    · simp [h]
    · simp [h, ih]

theorem get_append_of_hasName (r : Registry) (d : String × ClassRef) (name : String)
    (h : Registry.hasName r name = true) :
    customElements.get (r ++ [d]) name = customElements.get r name := by
  induction r with
  | nil => simp [Registry.hasName] at h
  | cons e r ih =>
    rw [List.cons_append, get_cons, get_cons]
    by_cases he : e.1 = name
    · simp [he]
    · rw [hasName_cons] at h
      simp [he] at h
      simp [he, ih h]

theorem get_append_of_not_hasName (r : Registry) (d : String × ClassRef) (name : String)
    (h : Registry.hasName r name = false) :
    customElements.get (r ++ [d]) name
      = if d.1 = name then JSVal.ctor d.2 else JSVal.undefined := by
  induction r with
  | nil => rw [List.nil_append, get_cons, get_nil]
  | cons e r ih =>
    rw [hasName_cons] at h
    simp at h
    rw [List.cons_append, get_cons]
    simp [h.1, ih h.2]

theorem hasConstructor_of_get (r : Registry) (name : String) (c : ClassRef)
    (h : customElements.get r name = JSVal.ctor c) :
    Registry.hasConstructor r c = true := by
  induction r with
  | nil => simp [get_nil] at h
  | cons e r ih =>
    rw [get_cons] at h
    rw [hasConstructor_cons]
    by_cases he : e.1 = name
    · simp [he] at h
      simp [h]
    · simp [he] at h
      simp [ih h]

/-- On the reference registry the wrapper and `define` have the same outcome. -/
theorem defineComponent_window (r : Registry) (name : String) (component : JSVal) :
    Interop.defineComponent window r name component
      = customElements.define r name component := by
  unfold Interop.defineComponent window customElements.define
  cases component <;> simp
  split_ifs <;> rfl

/-- When `define` returns, it returned `undefined` after adding the definition
of a constructor under a valid name that was not registered. -/
theorem define_ok (r r' : Registry) (name : String) (component v : JSVal)
    (h : customElements.define r name component = (Except.ok v, r')) :
    ∃ c, component = JSVal.ctor c ∧ isValidCustomElementName name = true
      ∧ Registry.hasName r name = false ∧ Registry.hasConstructor r c = false
      ∧ v = JSVal.undefined ∧ r' = r ++ [(name, c)] := by
  unfold customElements.define at h
  cases component <;> simp at h
  rename_i c
  split_ifs at h with h1 h2 h3 <;> simp at h
  refine ⟨c, rfl, ?_, ?_, ?_, h.1.symm, h.2.symm⟩
  · simpa using h1
  · simpa using h2
  · simpa using h3

/-- A call of `define` that throws leaves the registry as it was. -/
theorem define_error (r : Registry) (name : String) (component : JSVal) (e : DOMError)
    (h : (customElements.define r name component).1 = Except.error e) :
    (customElements.define r name component).2 = r := by
  unfold customElements.define at h ⊢
  cases component <;> simp at h ⊢
  split_ifs at h ⊢ <;> simp at h ⊢

/-- A valid name contains a hyphen. -/
theorem hyphen_of_valid (name : String) (h : isValidCustomElementName name = true) :
    '-' ∈ name.toList := by
  unfold isValidCustomElementName isPotentialCustomElementName at h
  cases hn : name.toList with
  | nil => simp [String.toList] at hn; simp [hn] at h
  | cons c rest =>
    simp only [String.toList] at hn
    simp [hn] at h
    exact List.mem_cons_of_mem _ h.1.2

/-- A call of the wrapper keeps every name that is registered mapped to its class. -/
theorem get_defineComponent_of_registered (r : Registry) (name : String) (C : ClassRef)
    (h : customElements.get r name = JSVal.ctor C) (n : String) (component : JSVal) :
    customElements.get (Interop.defineComponent window r n component).2 name
      = JSVal.ctor C := by
  rw [defineComponent_window]
  cases hd : customElements.define r n component with
  | mk res r' =>
    cases res with
    | error e =>
      have := define_error r n component e (by rw [hd])
      rw [hd] at this
      simp only at this
      simpa [this] using h
    | ok v =>
      obtain ⟨c, -, -, -, -, -, hr'⟩ := define_ok r r' n component v hd
      have hn : Registry.hasName r name = true := by
        cases hb : Registry.hasName r name with
        | true => rfl
        | false =>
          rw [(get_eq_undefined_iff r name).mpr hb] at h
          cases h
      simp only [hr']
      rw [get_append_of_hasName r (n, c) name hn, h]

/-! ## The claims -/

/-- C1: for every registry state, every valid name that is not registered in it
and every class `C`, after `defineComponent(name, C)` returns, `get(name)` is
exactly `C`; and the call does return when `C` is not registered under another
name. -/
theorem defineComponent_then_get (r : Registry) (name : String) (C : ClassRef)
    (hvalid : isValidCustomElementName name = true)
    (hfree : window.get r name = JSVal.undefined) :
    (∀ v r', Interop.defineComponent window r name (JSVal.ctor C) = (Except.ok v, r') →
        window.get r' name = JSVal.ctor C)
    ∧ (Registry.hasConstructor r C = false →
        ∃ r', Interop.defineComponent window r name (JSVal.ctor C)
                = (Except.ok JSVal.undefined, r')
          ∧ window.get r' name = JSVal.ctor C) := by
  have hn : Registry.hasName r name = false := (get_eq_undefined_iff r name).mp hfree
  constructor
  · intro v r' h
    rw [defineComponent_window] at h
    obtain ⟨c, hc, -, -, -, -, hr'⟩ := define_ok r r' name _ v h
    cases hc
    show customElements.get r' name = JSVal.ctor C
    rw [hr', get_append_of_not_hasName r (name, C) name hn]
    simp
  · intro hC
    refine ⟨r ++ [(name, C)], ?_, ?_⟩
    · rw [defineComponent_window]
      simp [customElements.define, hvalid, hn, hC]
    · show customElements.get (r ++ [(name, C)]) name = JSVal.ctor C
      rw [get_append_of_not_hasName r (name, C) name hn]
      simp

/-- Witness of C1: the scenario `defineComponent("my-widget", MyWidgetClass)` on
the empty registry. -/
theorem defineComponent_then_get_witness :
    isValidCustomElementName "my-widget" = true
    ∧ window.get [] "my-widget" = JSVal.undefined
    ∧ Interop.defineComponent window [] "my-widget" MyWidgetClass
        = (Except.ok JSVal.undefined, [("my-widget", ClassRef.user 1)])
    ∧ window.get [("my-widget", ClassRef.user 1)] "my-widget" = MyWidgetClass :=
  ⟨by decide, rfl, rfl,
    (defineComponent_then_get [] "my-widget" (ClassRef.user 1) (by decide) rfl).1
      JSVal.undefined [("my-widget", ClassRef.user 1)] rfl⟩

/-- C2: if `defineComponent(name, C1)` returns, a following
`defineComponent(name, C2)` with the same name throws the host's error and
changes nothing, whether or not `C2` is `C1`: `NotSupportedError` for a
constructor, `TypeError` for any other value. -/
theorem defineComponent_same_name_twice_throws (r r1 : Registry) (name : String)
    (C1 C2 v : JSVal)
    (h : Interop.defineComponent window r name C1 = (Except.ok v, r1)) :
    Interop.defineComponent window r1 name C2
      = (Except.error (if isConstructor C2 then DOMError.NotSupportedError
                       else DOMError.TypeError), r1) := by
  rw [defineComponent_window] at h ⊢
  obtain ⟨c, -, hvalid, hn, -, -, hr1⟩ := define_ok r r1 name C1 v h
  have hreg : Registry.hasName r1 name = true := by
    rw [hr1]
    simp [Registry.hasName]
  cases C2 <;> simp [customElements.define, isConstructor, hvalid, hreg]

/-- Witness of C2: registering "my-widget" twice, with the same class. -/
theorem defineComponent_same_name_twice_throws_witness :
    Interop.defineComponent window [] "my-widget" MyWidgetClass
        = (Except.ok JSVal.undefined, [("my-widget", ClassRef.user 1)])
    ∧ Interop.defineComponent window [("my-widget", ClassRef.user 1)] "my-widget"
          MyWidgetClass
        = (Except.error DOMError.NotSupportedError, [("my-widget", ClassRef.user 1)]) :=
  ⟨rfl, defineComponent_same_name_twice_throws [] [("my-widget", ClassRef.user 1)]
    "my-widget" MyWidgetClass MyWidgetClass JSVal.undefined rfl⟩

/-- C3: `defineComponent` throws exactly when the host's `define` throws on the
same state and arguments, then with the same error, and leaves the state
`define` leaves; on the reference registry it throws for every name that is not
valid, in particular for every name without a hyphen, and for every name that
is already registered. -/
theorem defineComponent_throws_iff_define_throws {σ ε : Type} (w : Host σ ε) (s : σ)
    (name : String) (component : JSVal) :
    (∀ e, (Interop.defineComponent w s name component).1 = Except.error e
        ↔ (w.define s name component).1 = Except.error e)
    ∧ (Interop.defineComponent w s name component).2 = (w.define s name component).2
    ∧ (∀ r : Registry, isValidCustomElementName name = false →
        ∃ e, Interop.defineComponent window r name component = (Except.error e, r))
    ∧ (∀ r : Registry, ¬ '-' ∈ name.toList →
        ∃ e, Interop.defineComponent window r name component = (Except.error e, r))
    ∧ (∀ r : Registry, window.get r name ≠ JSVal.undefined →
        ∃ e, Interop.defineComponent window r name component = (Except.error e, r)) := by
  have hmalformed : ∀ r : Registry, isValidCustomElementName name = false →
      ∃ e, Interop.defineComponent window r name component = (Except.error e, r) := by
    intro r hv
    rw [defineComponent_window]
    cases component <;> simp [customElements.define, hv]
  refine ⟨?_, ?_, hmalformed, ?_, ?_⟩
  · intro e
    unfold Interop.defineComponent
    rcases hd : w.define s name component with ⟨res, s'⟩
    cases res <;> simp
  · unfold Interop.defineComponent
    rcases hd : w.define s name component with ⟨res, s'⟩
    cases res <;> simp
  · intro r hh
    apply hmalformed r
    cases hv : isValidCustomElementName name with
    | false => rfl
    | true => exact absurd (hyphen_of_valid name hv) hh
  · intro r hreg
    have hn : Registry.hasName r name = true := by
      cases hb : Registry.hasName r name with
      | true => rfl
      | false => exact absurd ((get_eq_undefined_iff r name).mpr hb) hreg
    rw [defineComponent_window]
    cases hv : isValidCustomElementName name <;>
      cases component <;> simp [customElements.define, hv, hn]

/-- Witness of C3: a name without a hyphen, and a name that is registered. -/
theorem defineComponent_throws_iff_define_throws_witness :
    Interop.defineComponent window [] "mywidget" MyWidgetClass
        = (Except.error DOMError.SyntaxError, [])
    ∧ (window.define [] "mywidget" MyWidgetClass).1 = Except.error DOMError.SyntaxError
    ∧ (∃ e, Interop.defineComponent window [("my-widget", ClassRef.user 1)] "my-widget"
              (JSVal.ctor (ClassRef.user 2))
            = (Except.error e, [("my-widget", ClassRef.user 1)])) :=
  ⟨rfl,
    ((defineComponent_throws_iff_define_throws window [] "mywidget" MyWidgetClass).1
      DOMError.SyntaxError).mp rfl,
    (defineComponent_throws_iff_define_throws window [] "my-widget"
      (JSVal.ctor (ClassRef.user 2))).2.2.2.2 [("my-widget", ClassRef.user 1)] (by decide)⟩

/-- C4: once a name is mapped to class `C`, it is still mapped to `C` after
every finite sequence of further `defineComponent` calls, returning or
throwing, with any names and components; a throwing call leaves the registry
unchanged, and a returning call changes the mapping of no other name. -/
theorem registration_irreversible (r : Registry) (name : String) (C : ClassRef)
    (h : window.get r name = JSVal.ctor C) (calls : List (String × JSVal)) :
    window.get (runDefines window r calls) name = JSVal.ctor C
    ∧ (∀ (n : String) (c : JSVal) (e : DOMError),
        (Interop.defineComponent window r n c).1 = Except.error e →
          (Interop.defineComponent window r n c).2 = r)
    ∧ (∀ (n : String) (c v : JSVal) (m : String),
        (Interop.defineComponent window r n c).1 = Except.ok v → m ≠ n →
          window.get (Interop.defineComponent window r n c).2 m = window.get r m) := by
  refine ⟨?_, ?_, ?_⟩
  · show customElements.get (runDefines window r calls) name = JSVal.ctor C
    induction calls generalizing r with
    | nil => exact h
    | cons call rest ih =>
      exact ih _ (get_defineComponent_of_registered r name C h call.1 call.2)
  · intro n c e he
    rw [defineComponent_window] at he ⊢
    exact define_error r n c e he
  · intro n c v m hv hm
    rw [defineComponent_window] at hv ⊢
    rcases hd : customElements.define r n c with ⟨res, r'⟩
    rw [hd] at hv
    simp only at hv
    subst hv
    obtain ⟨k, -, -, -, -, -, hr'⟩ := define_ok r r' n c v hd
    show customElements.get r' m = customElements.get r m
    rw [hr']
    cases hb : Registry.hasName r m with
    | true => exact get_append_of_hasName r (n, k) m hb
    | false =>
      rw [get_append_of_not_hasName r (n, k) m hb, (get_eq_undefined_iff r m).mpr hb]
      simp [Ne.symm hm]

/-- Witness of C4: after "my-widget" is registered, a second registration of the
name, a malformed name and a new name leave it mapped to the same class. -/
theorem registration_irreversible_witness :
    window.get [("my-widget", ClassRef.user 1)] "my-widget" = MyWidgetClass
    ∧ window.get
        (runDefines window [("my-widget", ClassRef.user 1)]
          [("my-widget", JSVal.ctor (ClassRef.user 2)), ("nohyphen", JSVal.null),
           ("other-widget", JSVal.ctor (ClassRef.user 3))])
        "my-widget" = MyWidgetClass :=
  ⟨rfl, (registration_irreversible [("my-widget", ClassRef.user 1)] "my-widget"
    (ClassRef.user 1) rfl _).1⟩

/-- C5: each of the six aliases gives, for every argument list and state, the
outcome (value or error, and state) of the `haunted` function it is bound to. -/
theorem aliases_forward {σ ε : Type} (haunted : HauntedLib σ ε) (args : List JSVal)
    (s : σ) :
    Library.Haunted_useState_1505 haunted args s = haunted.useState args s
    ∧ Library.Haunted_useState_FCFD9EF haunted args s = haunted.useState args s
    ∧ Library.Haunted_useEffect_Z7A61650B haunted args s = haunted.useEffect args s
    ∧ Library.Haunted_useEffect_A8D5B5F haunted args s = haunted.useEffect args s
    ∧ Library.Haunted_Component_4E60E31B haunted args s = haunted.component args s
    ∧ Library.Haunted_Component_Z4AA1EB8B haunted args s = haunted.component args s :=
  ⟨rfl, rfl, rfl, rfl, rfl, rfl⟩

/-- C6: `new Haunted()`, with any arguments, and `Haunted_$ctor()` return an
instance of `Haunted` with no own property, and any two instances have the same
state. -/
theorem Haunted_construct (args args' : List JSVal) :
    (Library.Haunted.new args).cls = ClassRef.haunted
    ∧ (Library.Haunted.new args).own = []
    ∧ Library.Haunted_ctor.cls = ClassRef.haunted
    ∧ Library.Haunted_ctor.own = []
    ∧ Library.Haunted.new args = Library.Haunted_ctor
    ∧ Library.Haunted.new args = Library.Haunted.new args' :=
  ⟨rfl, rfl, rfl, rfl, rfl, rfl⟩

/-- C7: whenever `defineComponent(name, component)` returns, its result is
`undefined`, whatever value the host's `define` returned, and the state it
leaves is the one `define` left. -/
theorem defineComponent_returns_undefined {σ ε : Type} (w : Host σ ε) (s : σ)
    (name : String) (component v : JSVal)
    (h : (Interop.defineComponent w s name component).1 = Except.ok v) :
    v = JSVal.undefined
    ∧ (∃ u, (w.define s name component).1 = Except.ok u)
    ∧ (Interop.defineComponent w s name component).2 = (w.define s name component).2 := by
  unfold Interop.defineComponent at h ⊢
  rcases hd : w.define s name component with ⟨res, s'⟩
  rw [hd] at h
  cases res with
  | error e => simp at h
  | ok u =>
    simp only [Except.ok.injEq] at h
    exact ⟨h.symm, ⟨u, rfl⟩, rfl⟩

/-- Witness of C7: a host whose `define` returns a string. -/
theorem defineComponent_returns_undefined_witness :
    (talkativeWindow.define 0 "my-widget" MyWidgetClass).1
        = Except.ok (JSVal.str "my-widget")
    ∧ (Interop.defineComponent talkativeWindow 0 "my-widget" MyWidgetClass).1
        = Except.ok JSVal.undefined
    ∧ (JSVal.undefined = JSVal.undefined
      ∧ (∃ u, (talkativeWindow.define 0 "my-widget" MyWidgetClass).1 = Except.ok u)
      ∧ (Interop.defineComponent talkativeWindow 0 "my-widget" MyWidgetClass).2
          = (talkativeWindow.define 0 "my-widget" MyWidgetClass).2) :=
  ⟨rfl, rfl,
    defineComponent_returns_undefined talkativeWindow 0 "my-widget" MyWidgetClass
      JSVal.undefined rfl⟩

/-- C8: the `defineComponent` exported by `Library.fs.js` has, for every host,
state, name and component, the outcome of `interop.js`'s `defineComponent`:
the same result or error and the same resulting state. -/
theorem Library_defineComponent_eq {σ ε : Type} (w : Host σ ε) (s : σ) (name : String)
    (component : JSVal) :
    Library.defineComponent w s name component
      = Interop.defineComponent w s name component :=
  rfl

/-- C9: `Haunted$reflection()` is `class_type` applied to the full name
"Fable.Haunted.Haunted", `undefined` generics and the class `Haunted`, whatever
`class_type` is; with the reference `class_type` the descriptor has that name,
those generics and that constructor.  The function takes no argument and reads
no state, so every call returns this descriptor. -/
theorem Haunted_reflection_descriptor :
    (∀ (τ : Type) (ct : List JSVal → τ),
        Library.Haunted_reflection ct
          = ct [JSVal.str "Fable.Haunted.Haunted", JSVal.undefined, Library.Haunted])
    ∧ (Library.Haunted_reflection class_type).fullname = JSVal.str "Fable.Haunted.Haunted"
    ∧ (Library.Haunted_reflection class_type).generics = JSVal.undefined
    ∧ (Library.Haunted_reflection class_type).construct = Library.Haunted :=
  ⟨fun _ _ => rfl, rfl, rfl, rfl⟩

/-- C10: a valid name that is not registered is not enough: when the class `C`
is already registered under another name, `defineComponent(name, C)` throws
`NotSupportedError` and leaves the registry unchanged. -/
theorem defineComponent_rejects_registered_class (r : Registry) (name other : String)
    (C : ClassRef)
    (hvalid : isValidCustomElementName name = true)
    (hfree : window.get r name = JSVal.undefined)
    (hheld : window.get r other = JSVal.ctor C) :
    other ≠ name
    ∧ Interop.defineComponent window r name (JSVal.ctor C)
        = (Except.error DOMError.NotSupportedError, r) := by
  have hn : Registry.hasName r name = false := (get_eq_undefined_iff r name).mp hfree
  have hC : Registry.hasConstructor r C = true := hasConstructor_of_get r other C hheld
  constructor
  · rintro rfl
    have h1 : customElements.get r other = JSVal.undefined := hfree
    have h2 : customElements.get r other = JSVal.ctor C := hheld
    rw [h1] at h2
    cases h2
  · rw [defineComponent_window]
    simp [customElements.define, hvalid, hn, hC]

/-- Witness of C10: `MyWidgetClass`, registered as "my-widget", is rejected under
the valid and unregistered name "other-widget". -/
theorem defineComponent_rejects_registered_class_witness :
    isValidCustomElementName "other-widget" = true
    ∧ window.get [("my-widget", ClassRef.user 1)] "other-widget" = JSVal.undefined
    ∧ window.get [("my-widget", ClassRef.user 1)] "my-widget" = MyWidgetClass
    ∧ Interop.defineComponent window [("my-widget", ClassRef.user 1)] "other-widget"
          MyWidgetClass
        = (Except.error DOMError.NotSupportedError, [("my-widget", ClassRef.user 1)]) :=
  ⟨by decide, by decide, rfl,
    (defineComponent_rejects_registered_class [("my-widget", ClassRef.user 1)]
      "other-widget" "my-widget" (ClassRef.user 1) (by decide) (by decide) rfl).2⟩

end FableHaunted
